import Mathlib

/-!
# kresources: manifests, resource addresses and the cluster accessor

A shallow embedding of the Go packages `pkg/resources`, `pkg/manifests`,
`pkg/clusters` and of `kresources.go`.

* Go `error` values are modelled by `Error`: a leaf carries the identity of the
  value (`errors.New` returns a fresh pointer, so two sentinels with the same
  text are different errors), `wrapError` is what `fmt.Errorf` builds for `%w`.
* A Go `nil` pointer or interface is `none`; a call that panics is `Outcome.panicked`.
* The cluster client is a state machine over an arbitrary state `σ`; every call
  that reaches it is appended to `World.calls`.
-/

set_option autoImplicit false
set_option linter.dupNamespace false

namespace Kres

/-! ## Go errors -/

/-- Go error values: `errorString` is a leaf (an `errors.New` value or an error made
by a library), identified by `addr`; `wrapError` is the result of `fmt.Errorf` with
one `%w` verb, holding the formatted message and the wrapped error. -/
inductive Error where
  | errorString (addr : Nat) (text : String)
  | wrapError (msg : String) (err : Error)
deriving DecidableEq

namespace Error

/-- The message of an error, Go `err.Error()`. -/
def Error : Kres.Error → String
  | errorString _ text => text
  | wrapError msg _ => msg

end Error

namespace errors

/-- Go `errors.Unwrap`. -/
def Unwrap : Error → Option Error
  | .errorString _ _ => none
  | .wrapError _ err => some err

/-- Go `errors.Is`: walks the chain of wrapped errors comparing each link with `target`. -/
def Is : Error → Error → Bool
  | .errorString addr text, target => decide (Error.errorString addr text = target)
  | .wrapError msg err, target => decide (Error.wrapError msg err = target) || Is err target

end errors

namespace fmt

/-- Go `fmt.Errorf(format, ..., err)` whose format ends in `%w`: `pre` is the text formatted
from everything before the `%w` verb. -/
def Errorf (pre : String) (err : Error) : Error :=
  .wrapError (pre ++ err.Error) err

end fmt

/-! ## The structured resource (k8s.io/apimachinery) -/

namespace schema

/-- Go `schema.GroupVersion`. -/
structure GroupVersion where
  Group : String
  Version : String
deriving DecidableEq

/-- Go `schema.GroupVersionKind`; the zero value has three empty strings. -/
structure GroupVersionKind where
  Group : String
  Version : String
  Kind : String
deriving DecidableEq

/-- Go `schema.GroupVersionResource`. -/
structure GroupVersionResource where
  Group : String
  Version : String
  Resource : String
deriving DecidableEq

/-- Modelled from the spec: `GroupVersion.String` of k8s.io/apimachinery (not under src/),
the Kubernetes convention for the `apiVersion` field: "group/version", and the bare
version for the core group. -/
def GroupVersion.String (gv : GroupVersion) : String :=
  if gv.Group ≠ "" then gv.Group ++ "/" ++ gv.Version else gv.Version

/-- Modelled from the spec: `schema.ParseGroupVersion` of k8s.io/apimachinery (not under
src/), the inverse convention: no slash is a core-group version, one slash separates
group and version, anything else is malformed (`none`). -/
def ParseGroupVersion (gv : String) : Option GroupVersion :=
  if gv = "" ∨ gv = "/" then some ⟨"", ""⟩
  else
    match gv.data.count '/' with
    | 0 => some ⟨"", gv⟩
    | 1 => some ⟨String.mk (gv.data.takeWhile (· != '/')),
                 String.mk ((gv.data.dropWhile (· != '/')).drop 1)⟩
    | _ => none

end schema

namespace unstructured

/-- Modelled from the spec: `unstructured.Unstructured` of k8s.io/apimachinery (not under
src/), the schema-less tree of one Kubernetes object, read through its accessors:
`apiVersion`, `kind`, `metadata.name`, `metadata.namespace`, `metadata.resourceVersion`,
and every other field in `fields`. An absent string field reads as "". -/
structure Unstructured where
  apiVersion : String
  kind : String
  name : String
  ns : String
  resourceVersion : String
  fields : List (String × String)
deriving DecidableEq

/-- The Go value `&unstructured.Unstructured{}`: no fields at all. -/
def Unstructured.empty : Unstructured := ⟨"", "", "", "", "", []⟩

namespace Unstructured

def GetAPIVersion (u : Unstructured) : String := u.apiVersion

def GetKind (u : Unstructured) : String := u.kind

def GetName (u : Unstructured) : String := u.name

def GetNamespace (u : Unstructured) : String := u.ns

def GetResourceVersion (u : Unstructured) : String := u.resourceVersion

def SetName (u : Unstructured) (name : String) : Unstructured := { u with name := name }

def SetNamespace (u : Unstructured) (ns : String) : Unstructured := { u with ns := ns }

def SetResourceVersion (u : Unstructured) (v : String) : Unstructured :=
  { u with resourceVersion := v }

/-- Modelled from the spec: `SetGroupVersionKind` of k8s.io/apimachinery (not under src/):
the group and version are kept in `apiVersion`, as `gvk.GroupVersion().String()`, next to
the kind. -/
def SetGroupVersionKind (u : Unstructured) (gvk : schema.GroupVersionKind) : Unstructured :=
  { u with apiVersion := schema.GroupVersion.String ⟨gvk.Group, gvk.Version⟩, kind := gvk.Kind }

/-- Modelled from the spec: `GroupVersionKind` of k8s.io/apimachinery (not under src/):
group and version are parsed out of `apiVersion`; a malformed `apiVersion` gives the zero
value, kind included. -/
def GroupVersionKind (u : Unstructured) : schema.GroupVersionKind :=
  match schema.ParseGroupVersion u.GetAPIVersion with
  | none => ⟨"", "", ""⟩
  | some gv => ⟨gv.Group, gv.Version, u.GetKind⟩

end Unstructured

end unstructured

open unstructured (Unstructured)

/-! ## pkg/resources -/

namespace unicode

/-- Go `unicode.ToLower`: the letters A to Z are shifted to a to z, any other ASCII code
point is returned as it is, and a code point above ASCII is looked up in the case tables of
the Go standard library, which are external: they are the parameter `table`. -/
def ToLower (table : Char → Char) (r : Char) : Char :=
  if r.toNat ≤ 127 then r.toLower else table r

end unicode

namespace strings

/-- Go `strings.ToLower`: `unicode.ToLower` applied to every code point of the string. -/
def ToLower (table : Char → Char) (s : String) : String :=
  String.mk (s.data.map (unicode.ToLower table))

end strings

namespace resources

def ErrConvertUnstructured : Error := .errorString 1 "unable to convert to unstructured object"

def ErrMissingUnstructured : Error := .errorString 2 "unable to find unstructured object"

def ErrMissingKind : Error := .errorString 3 "unable to find kind"

/-- PluralResourceName returns the plural resource name of a GVK object. `RegularPlural`
is `resourceutil.RegularPlural` of kubebuilder, an external function. -/
def PluralResourceName (table : Char → Char) (RegularPlural : String → String)
    (gvk : schema.GroupVersionKind) : String × Option Error :=
  if gvk.Kind = "" then
    ("", some (fmt.Errorf "unable to pluralize resource - " ErrMissingKind))
  else
    (strings.ToLower table (RegularPlural gvk.Kind), none)

/-- ToGroupVersionResource returns a GroupVersionResource object given an unstructured
object (`none` is the nil pointer). -/
def ToGroupVersionResource (table : Char → Char) (RegularPlural : String → String)
    (object : Option Unstructured) : schema.GroupVersionResource × Option Error :=
  match object with
  | none => (⟨"", "", ""⟩, some ErrMissingUnstructured)
  | some obj =>
    match PluralResourceName table RegularPlural obj.GroupVersionKind with
    | (_, some err) => (⟨"", "", ""⟩, some (fmt.Errorf "unable to retrieve resource name - " err))
    | (resourceName, none) =>
      (⟨obj.GroupVersionKind.Group, obj.GroupVersionKind.Version, resourceName⟩, none)

end resources

namespace resourceutil

/-- Modelled from the spec: `resourceutil.RegularPlural` of sigs.k8s.io/kubebuilder (not
under src/), the "standard English pluralization rules" applied to the lower-cased kind: a
final "y" after a consonant becomes "ies", a final "s", "x", "z", "ch" or "sh" takes "es",
any other ending takes "s" ("Pod" gives "pods", "Policy" gives "policies"). Nouns with an
irregular plural and kinds that are plurals already are not told apart. -/
def RegularPlural (table : Char → Char) (singular : String) : String :=
  let lower := (strings.ToLower table singular).data
  match lower.reverse with
  | 'y' :: before :: rest =>
    if before ∈ ['a', 'e', 'i', 'o', 'u'] then String.mk (lower ++ ['s'])
    else String.mk ((before :: rest).reverse ++ ['i', 'e', 's'])
  | 's' :: _ => String.mk (lower ++ ['e', 's'])
  | 'x' :: _ => String.mk (lower ++ ['e', 's'])
  | 'z' :: _ => String.mk (lower ++ ['e', 's'])
  | 'h' :: 'c' :: _ => String.mk (lower ++ ['e', 's'])
  | 'h' :: 's' :: _ => String.mk (lower ++ ['e', 's'])
  | _ => String.mk (lower ++ ['s'])

end resourceutil

/-- What a Go call does: it returns its results, or it panics. -/
inductive Outcome (α : Type) where
  | returned (a : α)
  | panicked
deriving DecidableEq

/-! ## pkg/manifests -/

namespace io

/-- Go `io.EOF`. -/
def EOF : Error := .errorString 20 "EOF"

end io

namespace yaml

/-- Go `yaml.Node` of gopkg.in/yaml.v3 (an external type), by the fields that tell nodes
apart; `Node.zero` is the value of `var node yaml.Node`. -/
structure Node where
  Kind : Nat
  Tag : String
  Value : String
deriving DecidableEq

def Node.zero : Node := ⟨0, "", ""⟩

/-- What the parser of a yaml.v3 decoder finds when it is asked for the next document: a
document, or text that does not parse. -/
inductive Parsed where
  | document
  | failed (err : Error)
deriving DecidableEq

/-- Go `Decoder.Decode(v)` of gopkg.in/yaml.v3 (external), for a `v` that is a `yaml.Node`
handed over by value, as ToYAML hands it: when the parser fails, Decode returns that error;
when the parser yields a document, Decode stores it into `v` through reflection, `Set` on a
value that is not addressable panics, and the decoder passes on every panic that is not
one of its own errors. The local `node` of the caller is never written. -/
def Decode : Parsed → Outcome (Option Error)
  | .failed err => .returned (some err)
  | .document => .panicked

end yaml

/-- The operating system and the YAML and JSON codecs, all external to the repository.
`IsNotExist path` is `os.IsNotExist(err)` for the error of `os.Stat(path)`; `Decode content`
lists what the parser of a decoder reading `content` finds, call after call; once the list
is used up the input is at its end and `decoder.Decode` returns `io.EOF`. -/
structure Host where
  IsNotExist : String → Bool
  ReadFile : String → Except Error (List UInt8)
  Decode : List UInt8 → List yaml.Parsed
  Marshal : yaml.Node → Except Error (List UInt8)
  UnmarshalJSON : List UInt8 → Except Error Unstructured

namespace resources

/-- FromYAML converts a YAML node object into a Kubernetes unstructured object. -/
def FromYAML (host : Host) (yamlNode : yaml.Node) : Option Unstructured × Option Error :=
  match host.Marshal yamlNode with
  | .error err => (none, some err)
  | .ok jsonBytes =>
    match host.UnmarshalJSON jsonBytes with
    | .error err => (none, some err)
    | .ok object => (some object, none)

/-- The dynamic types an `interface{}` argument of ToUnstructured can have. -/
inductive Input where
  | node (object : yaml.Node)
  | nodePointer (object : yaml.Node)
  | unsupported (typeName : String)

/-- ToUnstructured converts a variety of known objects into Kubernetes unstructured
objects; an unknown input type is an error. -/
def ToUnstructured (host : Host) (input : Input) : Option Unstructured × Option Error :=
  match input with
  | .node object => FromYAML host object
  | .nodePointer object => FromYAML host object
  | .unsupported typeName =>
    (some Unstructured.empty,
      some (fmt.Errorf ("unsupported type [" ++ typeName ++ "] - ") ErrConvertUnstructured))

end resources

namespace manifests

def ErrFileMissing : Error := .errorString 10 "unable to locate file"

def ErrFileRead : Error := .errorString 11 "unable to read file"

def ErrConvertUnstructured : Error := .errorString 12 "unable to convert to unstructured object"

/-- Manifest represents a Kubernetes file manifest. A slice is a list, the nil slice the
empty list; an entry of `Resources` is a pointer, `none` when nil. -/
structure Manifest where
  File : String
  Content : List UInt8
  YAML : List yaml.Node
  Resources : List (Option Unstructured)
deriving DecidableEq

/-- The loop of ToYAML over what the parser finds for the successive `decoder.Decode(node)`
calls; the empty list is the end of the input, where Decode returns `io.EOF`. After a
Decode that returns nil the address of the local `node` is appended: Decode got `node` by
value, so that node is the zero node. -/
def ToYAML.loop (file : String) : List yaml.Parsed → List yaml.Node →
    Outcome (List yaml.Node × Option Error)
  | [], yamlObjects => .returned (yamlObjects, none)
  | next :: rest, yamlObjects =>
    match yaml.Decode next with
    | .panicked => .panicked
    | .returned (some err) =>
      if err = io.EOF then .returned (yamlObjects, none)
      else .returned ([], some (fmt.Errorf ("error decoding manifest " ++ file ++ " - ") err))
    | .returned none => ToYAML.loop file rest (yamlObjects ++ [yaml.Node.zero])

/-- ToYAML returns a manifest as an array of YAML objects. -/
def Manifest.ToYAML (host : Host) (manifest : Manifest) :
    Outcome (List yaml.Node × Option Error) :=
  ToYAML.loop manifest.File (host.Decode manifest.Content) []

/-- The loop of NewManifest over the elements of `manifest.YAML` still to convert. -/
def NewManifest.loop (host : Host) : List yaml.Node → Manifest →
    Option Manifest × Option Error
  | [], manifest => (some manifest, none)
  | node :: rest, manifest =>
    match resources.ToUnstructured host (.nodePointer node) with
    | (_, some err) =>
      (some manifest, some (fmt.Errorf (ErrConvertUnstructured.Error ++ " - ") err))
    | (object, none) =>
      NewManifest.loop host rest { manifest with Resources := manifest.Resources ++ [object] }

/-- NewManifest creates a new instance of a Manifest object. -/
def NewManifest (host : Host) (path : String) : Outcome (Option Manifest × Option Error) :=
  if host.IsNotExist path then
    .returned (none, some (fmt.Errorf ("file missing " ++ path ++ " - ") ErrFileMissing))
  else
    match host.ReadFile path with
    | .error _ =>
      .returned (none, some (fmt.Errorf ("file error " ++ path ++ " - ") ErrFileRead))
    | .ok content =>
      let manifest : Manifest := ⟨path, content, [], []⟩
      match manifest.ToYAML host with
      | .panicked => .panicked
      | .returned (_, some err) =>
        .returned (some manifest,
          some (fmt.Errorf ("error retrieving yaml objects from path " ++ manifest.File ++ " - ") err))
      | .returned (yamlContent, none) =>
        .returned (NewManifest.loop host yamlContent { manifest with YAML := yamlContent })

end manifests

/-! ## pkg/clusters -/

namespace context

/-- Go `context.Context` values: the background context, or one made by the caller. -/
inductive Context where
  | Background
  | other (id : Nat)
deriving DecidableEq

end context

namespace dynamic

/-- The calls that reach the dynamic client of k8s.io/client-go. -/
inductive Call where
  | Resource (gvr : schema.GroupVersionResource) (ns : String)
  | Create (object : Option Unstructured)
  | Get (name : String)
  | Update (object : Option Unstructured)
  | Delete (name : String)
deriving DecidableEq

/-- Go `dynamic.ResourceInterface`, an external interface: each verb reads and changes a
state `σ` of the cluster (or of a mock) and returns what the Go method returns. The
options arguments, always zero values in this repository, are left out. -/
structure ResourceInterface (σ : Type) where
  Create : Option context.Context → Option Unstructured → σ →
    (Option Unstructured × Option Error) × σ
  Get : Option context.Context → String → σ → (Option Unstructured × Option Error) × σ
  Update : Option context.Context → Option Unstructured → σ →
    (Option Unstructured × Option Error) × σ
  Delete : Option context.Context → String → σ → Option Error × σ

/-- Go `dynamic.Interface`: `Resource gvr ns` is `client.Resource(gvr).Namespace(ns)`. -/
structure Interface (σ : Type) where
  Resource : schema.GroupVersionResource → String → ResourceInterface σ

end dynamic

/-- The cluster behind the client and the calls made on the client so far. -/
structure World (σ : Type) where
  state : σ
  calls : List dynamic.Call

namespace clusters

def ErrMissingGroupInput : Error :=
  .errorString 30 "missing Group field on ClusterResourceInput object"

def ErrMissingVersionInput : Error :=
  .errorString 31 "missing Version field on ClusterResourceInput object"

def ErrMissingKindInput : Error :=
  .errorString 32 "missing Kind field on ClusterResourceInput object"

def ErrMissingNameInput : Error :=
  .errorString 33 "missing Name field on ClusterResourceInput object"

def ErrMissingClientInput : Error :=
  .errorString 34 "missing dynamic.Interface object as Client field on ClusterResourceInput object"

def ErrMissingResource : Error :=
  .errorString 35 "missing Resource object on ClusterResource object"

/-- Cluster represents an object that is used to communicate with a Kubernetes cluster
via a dynamic client. -/
structure Cluster (σ : Type) where
  Client : Option (dynamic.Interface σ)

/-- ClusterResourceInput is a representation of the data required to create a cluster
resource. -/
structure ClusterResourceInput (σ : Type) where
  Group : String
  Version : String
  Kind : String
  Name : String
  Namespace : String
  Client : Option (dynamic.Interface σ)
  Context : Option context.Context

/-- ClusterResource is a representation of a resource which is extracted from a cluster. -/
structure ClusterResource (σ : Type) where
  Resource : Option Unstructured
  Client : Option (dynamic.ResourceInterface σ)
  Input : Option (ClusterResourceInput σ)
  Cluster : Option (Cluster σ)

/-- The Go value `&ClusterResource{}`. -/
def ClusterResource.zero {σ : Type} : ClusterResource σ := ⟨none, none, none, none⟩

/-- The result of running a method of a cluster resource: what the call did, the cluster
resource afterwards (the methods change it in place) and the world afterwards. -/
structure Ran (σ : Type) (α : Type) where
  out : Outcome α
  resource : ClusterResource σ
  world : World σ

/-- ClusterAction represents REST functions related to a cluster resource. -/
abbrev ClusterAction (σ : Type) : Type :=
  ClusterResource σ → World σ → Ran σ (Option Unstructured × Option Error)

/-- NewCluster creates a new instance of a cluster. -/
def NewCluster {σ : Type} (client : Option (dynamic.Interface σ)) : Cluster σ := ⟨client⟩

/-- Create creates a resource in a cluster. -/
def Cluster.Create {σ : Type} (_cluster : Option (Cluster σ)) : ClusterAction σ :=
  fun resource w =>
    match resource.Client, resource.Input with
    | some client, some input =>
      let r := client.Create input.Context resource.Resource w.state
      ⟨.returned r.1, resource, ⟨r.2, w.calls ++ [.Create resource.Resource]⟩⟩
    | _, _ => ⟨.panicked, resource, w⟩

/-- Read reads a resource from a cluster. -/
def Cluster.Read {σ : Type} (_cluster : Option (Cluster σ)) : ClusterAction σ :=
  fun resource w =>
    match resource.Client, resource.Input, resource.Resource with
    | some client, some input, some object =>
      let r := client.Get input.Context object.GetName w.state
      ⟨.returned r.1, resource, ⟨r.2, w.calls ++ [.Get object.GetName]⟩⟩
    | _, _, _ => ⟨.panicked, resource, w⟩

/-- Update updates a resource in a cluster. -/
def Cluster.Update {σ : Type} (cluster : Option (Cluster σ)) : ClusterAction σ :=
  fun resource w =>
    match Cluster.Read cluster resource w with
    | ⟨.panicked, resource, w⟩ => ⟨.panicked, resource, w⟩
    | ⟨.returned (_, some err), resource, w⟩ =>
      ⟨.returned (resource.Resource, some (fmt.Errorf "unable to get resource - " err)),
        resource, w⟩
    | ⟨.returned (currentResource, none), resource, w⟩ =>
      match currentResource, resource.Resource with
      | some current, some object =>
        let resource :=
          { resource with Resource := some (object.SetResourceVersion current.GetResourceVersion) }
        match resource.Client, resource.Input with
        | some client, some input =>
          let r := client.Update input.Context resource.Resource w.state
          ⟨.returned r.1, resource, ⟨r.2, w.calls ++ [.Update resource.Resource]⟩⟩
        | _, _ => ⟨.panicked, resource, w⟩
      | _, _ => ⟨.panicked, resource, w⟩

/-- Delete deletes a resource from a cluster. -/
def Cluster.Delete {σ : Type} (_cluster : Option (Cluster σ)) : ClusterAction σ :=
  fun resource w =>
    match resource.Client, resource.Input, resource.Resource with
    | some client, some input, some object =>
      let r := client.Delete input.Context object.GetName w.state
      ⟨.returned (some Unstructured.empty, r.1), resource,
        ⟨r.2, w.calls ++ [.Delete object.GetName]⟩⟩
    | _, _, _ => ⟨.panicked, resource, w⟩

/-- Validate validates a ClusterResourceInput. -/
def ClusterResourceInput.Validate {σ : Type} (input : ClusterResourceInput σ) : Option Error :=
  if input.Group = "" then some ErrMissingGroupInput
  else if input.Version = "" then some ErrMissingVersionInput
  else if input.Kind = "" then some ErrMissingKindInput
  else if input.Name = "" then some ErrMissingKindInput
  else if input.Client.isNone then some ErrMissingClientInput
  else none

/-- NewClusterResource creates a new instance of a cluster resource. -/
def NewClusterResource {σ : Type} (table : Char → Char) (RegularPlural : String → String)
    (input : ClusterResourceInput σ) (w : World σ) :
    Outcome (Option (ClusterResource σ) × Option Error) × World σ :=
  match input.Validate with
  | some err => (.returned (some ClusterResource.zero, some err), w)
  | none =>
    let input : ClusterResourceInput σ :=
      if input.Context.isNone then { input with Context := some .Background } else input
    let object :=
      ((Unstructured.empty.SetGroupVersionKind ⟨input.Group, input.Version, input.Kind⟩).SetName
        input.Name).SetNamespace input.Namespace
    match resources.ToGroupVersionResource table RegularPlural (some object) with
    | (_, some err) =>
      (.returned (none, some (fmt.Errorf "unable to get schema.GroupVersionResource - " err)), w)
    | (gvr, none) =>
      match input.Client with
      | none => (.panicked, w)
      | some client =>
        (.returned (some ⟨some object, some (client.Resource gvr object.GetNamespace), some input,
            some (NewCluster input.Client)⟩, none),
          ⟨w.state, w.calls ++ [.Resource gvr object.GetNamespace]⟩)

/-- perform is an entrypoint to perform a set of actions against a cluster. -/
def ClusterResource.perform {σ : Type} (resource : ClusterResource σ)
    (performAction : ClusterAction σ) (w : World σ) : Ran σ (Option Error) :=
  match performAction resource w with
  | ⟨.panicked, resource, w⟩ => ⟨.panicked, resource, w⟩
  | ⟨.returned (_, some err), resource, w⟩ => ⟨.returned (some err), resource, w⟩
  | ⟨.returned (object, none), resource, w⟩ =>
    ⟨.returned none, { resource with Resource := object }, w⟩

/-- Create creates a cluster resource. -/
def ClusterResource.Create {σ : Type} (resource : ClusterResource σ) (w : World σ) :
    Ran σ (Option Error) :=
  match resource.Resource with
  | none => ⟨.returned (some ErrMissingResource), resource, w⟩
  | some _ => resource.perform (Cluster.Create resource.Cluster) w

/-- Read reads a cluster resource from a cluster. -/
def ClusterResource.Read {σ : Type} (resource : ClusterResource σ) (w : World σ) :
    Ran σ (Option Error) :=
  resource.perform (Cluster.Read resource.Cluster) w

/-- Update updates a cluster resource. -/
def ClusterResource.Update {σ : Type} (resource : ClusterResource σ) (w : World σ) :
    Ran σ (Option Error) :=
  match resource.Resource with
  | none => ⟨.returned (some ErrMissingResource), resource, w⟩
  | some _ => resource.perform (Cluster.Update resource.Cluster) w

/-- Delete deletes a cluster resource. -/
def ClusterResource.Delete {σ : Type} (resource : ClusterResource σ) (w : World σ) :
    Ran σ (Option Error) :=
  match resource.Resource with
  | none => ⟨.returned (some ErrMissingResource), resource, w⟩
  | some _ => resource.perform (Cluster.Delete resource.Cluster) w

end clusters

/-! ## kresources.go -/

namespace kresources

/-- The loop of FromFiles over the files still to load. -/
def FromFiles.loop (host : Host) : List String → List (Option Unstructured) →
    Outcome (List (Option Unstructured) × Option Error)
  | [], manifestResources => .returned (manifestResources, none)
  | file :: rest, manifestResources =>
    match manifests.NewManifest host file with
    | .panicked => .panicked
    | .returned (_, some err) =>
      .returned ([], some (fmt.Errorf "unable to create instance of manifest object - " err))
    | .returned (none, none) => .panicked
    | .returned (some manifest, none) =>
      FromFiles.loop host rest (manifestResources ++ manifest.Resources)

/-- FromFiles returns a list of Kubernetes unstructured resource objects from a set of
given file paths. -/
def FromFiles (host : Host) (files : List String) :
    Outcome (List (Option Unstructured) × Option Error) :=
  FromFiles.loop host files []

/-- The loop of FromClusterFromFiles over the file resources still to fetch. -/
def FromClusterFromFiles.loop {σ : Type} (table : Char → Char) (RegularPlural : String → String)
    (client : Option (dynamic.Interface σ)) :
    List (Option Unstructured) → List (Option Unstructured) → World σ →
    Outcome (List (Option Unstructured) × Option Error) × World σ
  | [], clusterResources, w => (.returned (clusterResources, none), w)
  | none :: _, _, w => (.panicked, w)
  | some fileResource :: rest, clusterResources, w =>
    match clusters.NewClusterResource table RegularPlural
        ⟨fileResource.GroupVersionKind.Group, fileResource.GroupVersionKind.Version,
          fileResource.GroupVersionKind.Kind, fileResource.GetName, fileResource.GetNamespace,
          client, none⟩ w with
    | (.panicked, w) => (.panicked, w)
    | (.returned (_, some err), w) =>
      (.returned ([], some (fmt.Errorf
        "unable to create cluster resource object from file resource - " err)), w)
    | (.returned (none, none), w) => (.panicked, w)
    | (.returned (some clusterResource, none), w) =>
      match clusterResource.Read w with
      | ⟨.panicked, _, w⟩ => (.panicked, w)
      | ⟨.returned (some err), _, w⟩ =>
        (.returned ([], some (fmt.Errorf
          "unable to read cluster resource object from cluster - " err)), w)
      | ⟨.returned none, clusterResource, w⟩ =>
        FromClusterFromFiles.loop table RegularPlural client rest
          (clusterResources ++ [clusterResource.Resource]) w

/-- FromClusterFromFiles returns a list of Kubernetes unstructured resource objects from a
set of given file paths, fetched from the cluster. -/
def FromClusterFromFiles {σ : Type} (host : Host) (table : Char → Char)
    (RegularPlural : String → String)
    (client : Option (dynamic.Interface σ)) (files : List String) (w : World σ) :
    Outcome (List (Option Unstructured) × Option Error) × World σ :=
  match FromFiles host files with
  | .panicked => (.panicked, w)
  | .returned (_, some err) =>
    (.returned ([], some (fmt.Errorf "unable to retrieve resources from files - " err)), w)
  | .returned (fileResources, none) =>
    FromClusterFromFiles.loop table RegularPlural client fileResources [] w

end kresources

/-! ## Clients and resources for the examples -/

namespace sample

/-- A client on which every verb succeeds: Create and Update return the object they are
given, Get returns a Deployment at resource version "42"; the state counts the calls. -/
def accepting : dynamic.ResourceInterface Nat where
  Create := fun _ object s => ((object, none), s + 1)
  Get := fun _ name s => ((some ⟨"apps/v1", "Deployment", name, "prod", "42", []⟩, none), s + 1)
  Update := fun _ object s => ((object, none), s + 1)
  Delete := fun _ _ s => (none, s + 1)

/-- The error a cluster returns for an object it does not have. -/
def notFound : Error := .errorString 404 "deployments.apps \"web\" not found"

/-- A client on which every verb fails with `notFound`. -/
def refusing : dynamic.ResourceInterface Nat where
  Create := fun _ _ s => ((none, some notFound), s + 1)
  Get := fun _ _ s => ((none, some notFound), s + 1)
  Update := fun _ _ s => ((none, some notFound), s + 1)
  Delete := fun _ _ s => (some notFound, s + 1)

/-- A dynamic client handing out `accepting` for every address. -/
def acceptingCluster : dynamic.Interface Nat := ⟨fun _ _ => accepting⟩

/-- A Deployment named "web" in the namespace "prod". -/
def web : Unstructured := ⟨"apps/v1", "Deployment", "web", "prod", "", [("spec", "replicas: 3")]⟩

/-- The input from which `web` is addressed. -/
def webInput : clusters.ClusterResourceInput Nat :=
  ⟨"apps", "v1", "Deployment", "web", "prod", some acceptingCluster, some .Background⟩

/-- A cluster resource holding `web` over the given client. -/
def webOn (client : dynamic.ResourceInterface Nat) : clusters.ClusterResource Nat :=
  ⟨some web, some client, some webInput, some (clusters.NewCluster (some acceptingCluster))⟩

/-- A fragment of the Unicode case tables: the capital E with acute accent has the small e
with acute accent as its lower case, no other code point above ASCII is changed. -/
def caseTable : Char → Char :=
  fun r => if r = Char.ofNat 201 then Char.ofNat 233 else r

/-- The error of the JSON decoder of a structured resource on an object without a kind. -/
def kindMissing : Error := .errorString 500 "Object 'Kind' is missing in 'null'"

/-- A disk with the files "a.yaml" and "b.yaml", of one YAML document each, and the file
"empty.yaml", of no document; no other path exists. The codecs are those of the zero node:
it is marshalled as "null", which the structured resource does not accept. -/
def disk : Host where
  IsNotExist := fun path => !(path == "a.yaml" || path == "b.yaml" || path == "empty.yaml")
  ReadFile := fun path =>
    if path == "empty.yaml" then .ok [] else .ok [107, 105, 110, 100, 58, 32, 80, 111, 100, 10]
  Decode := fun content => if content.isEmpty then [] else [.document]
  Marshal := fun _ => .ok [110, 117, 108, 108, 10]
  UnmarshalJSON := fun _ => .error kindMissing

/-- An input with every field set and a slash in its group. -/
def slashInput : clusters.ClusterResourceInput Nat :=
  ⟨"example.com/apps", "v1", "Deployment", "web", "prod", some acceptingCluster, none⟩

/-- A world in which no call has been made. -/
def fresh : World Nat := ⟨0, []⟩

end sample

/-! ## Lemmas on errors and strings -/

theorem errors.Is_self (err : Error) : errors.Is err err = true := by
  cases err <;> simp [errors.Is]

theorem errors.Is_Errorf (pre : String) (err target : Error) (h : errors.Is err target = true) :
    errors.Is (fmt.Errorf pre err) target = true := by
  simp [fmt.Errorf, errors.Is, h]

theorem Char.toLower_not_isUpper (c : Char) : c.toLower.isUpper = false := by
  unfold Char.toLower
  by_cases h : c.toNat ≥ 65 ∧ c.toNat ≤ 90
  · obtain ⟨h1, h2⟩ := h
    have hc : ∃ n, c.toNat = n ∧ 65 ≤ n ∧ n ≤ 90 := ⟨_, rfl, h1, h2⟩
    obtain ⟨n, hn, h1, h2⟩ := hc
    simp only [hn, ge_iff_le, h1, h2, and_self, if_true]
    interval_cases n <;> rfl
  · simp only [h, if_false]
    simp only [Char.isUpper, Bool.and_eq_false_iff, decide_eq_false_iff_not]
    by_contra hcon
    push_neg at hcon
    apply h
    have h1 : (65 : UInt32) ≤ c.val := by simpa using hcon.1
    have h2 : c.val ≤ (90 : UInt32) := by simpa using hcon.2
    exact ⟨h1, h2⟩

theorem Char.toLower_toLower (c : Char) : c.toLower.toLower = c.toLower := by
  by_cases h : c.toNat ≥ 65 ∧ c.toNat ≤ 90
  · obtain ⟨h1, h2⟩ := h
    have hc : ∃ n, c.toNat = n ∧ 65 ≤ n ∧ n ≤ 90 := ⟨_, rfl, h1, h2⟩
    obtain ⟨n, hn, h1, h2⟩ := hc
    have hlow : c.toLower = Char.ofNat (n + 32) := by
      unfold Char.toLower
      simp only [hn, ge_iff_le, h1, h2, and_self, if_true]
    rw [hlow]
    interval_cases n <;> rfl
  · have hlow : c.toLower = c := by
      unfold Char.toLower
      simp only [h, if_false]
    rw [hlow, hlow]

theorem Char.toLower_toNat_le (c : Char) (hc : c.toNat ≤ 127) : c.toLower.toNat ≤ 127 := by
  by_cases h : c.toNat ≥ 65 ∧ c.toNat ≤ 90
  · obtain ⟨h1, h2⟩ := h
    have hn : ∃ n, c.toNat = n ∧ 65 ≤ n ∧ n ≤ 90 := ⟨_, rfl, h1, h2⟩
    obtain ⟨n, hn, h1, h2⟩ := hn
    have hlow : c.toLower = Char.ofNat (n + 32) := by
      unfold Char.toLower
      simp only [hn, ge_iff_le, h1, h2, and_self, if_true]
    rw [hlow]
    interval_cases n <;> decide
  · have hlow : c.toLower = c := by
      unfold Char.toLower
      simp only [h, if_false]
    rw [hlow]
    exact hc

theorem Char.toNat_le_of_isUpper (c : Char) (h : c.isUpper = true) : c.toNat ≤ 90 := by
  simp only [Char.isUpper, Bool.and_eq_true, decide_eq_true_eq] at h
  exact h.2

theorem unicode.ToLower_ToLower (table : Char → Char)
    (htable : ∀ r : Char, 127 < r.toNat → unicode.ToLower table (table r) = table r) (r : Char) :
    unicode.ToLower table (unicode.ToLower table r) = unicode.ToLower table r := by
  by_cases h : r.toNat ≤ 127
  · have h1 : unicode.ToLower table r = r.toLower := by simp [unicode.ToLower, h]
    rw [h1]
    simp [unicode.ToLower, Char.toLower_toNat_le r h, Char.toLower_toLower]
  · have h1 : unicode.ToLower table r = table r := by simp [unicode.ToLower, h]
    rw [h1]
    exact htable r (by omega)

theorem unicode.not_isUpper_of_fixed (table : Char → Char) (c : Char)
    (h : unicode.ToLower table c = c) : c.isUpper = false := by
  by_cases hc : c.toNat ≤ 127
  · have h1 : c.toLower = c := by simpa [unicode.ToLower, hc] using h
    rw [← h1]
    exact Char.toLower_not_isUpper c
  · by_contra hup
    have := Char.toNat_le_of_isUpper c (by simpa using hup)
    omega

theorem strings.ToLower_lowered (table : Char → Char)
    (htable : ∀ r : Char, 127 < r.toNat → unicode.ToLower table (table r) = table r)
    (s : String) :
    ∀ c ∈ (strings.ToLower table s).data, unicode.ToLower table c = c ∧ c.isUpper = false := by
  intro c hc
  simp only [strings.ToLower, List.mem_map] at hc
  obtain ⟨d, _, rfl⟩ := hc
  have hfix := unicode.ToLower_ToLower table htable d
  exact ⟨hfix, unicode.not_isUpper_of_fixed table _ hfix⟩

theorem sample.caseTable_lowered (r : Char) (_hr : 127 < r.toNat) :
    unicode.ToLower sample.caseTable (sample.caseTable r) = sample.caseTable r := by
  by_cases h : r = Char.ofNat 201
  · subst h
    rfl
  · have h1 : sample.caseTable r = r := by simp [sample.caseTable, h]
    rw [h1]
    have h2 : ¬ r.toNat ≤ 127 := by omega
    simp [unicode.ToLower, h2, h1]

/-! ## The resource-address resolver -/

theorem resources.PluralResourceName_empty (table : Char → Char)
    (RegularPlural : String → String) (gvk : schema.GroupVersionKind) (h : gvk.Kind = "") :
    resources.PluralResourceName table RegularPlural gvk =
      ("", some (fmt.Errorf "unable to pluralize resource - " resources.ErrMissingKind)) := by
  simp [resources.PluralResourceName, h]

theorem resources.PluralResourceName_kind (table : Char → Char)
    (RegularPlural : String → String) (gvk : schema.GroupVersionKind) (h : gvk.Kind ≠ "") :
    resources.PluralResourceName table RegularPlural gvk =
      (strings.ToLower table (RegularPlural gvk.Kind), none) := by
  simp [resources.PluralResourceName, h]

theorem schema.ParseGroupVersion_eq_none_iff (gv : String) :
    schema.ParseGroupVersion gv = none ↔ 2 ≤ gv.data.count '/' := by
  unfold schema.ParseGroupVersion
  by_cases h : gv = "" ∨ gv = "/"
  · simp only [h, if_true]
    rcases h with h | h <;> subst h <;> decide
  · simp only [h, if_false]
    generalize gv.data.count '/' = n
    rcases n with _ | _ | n <;> simp

theorem Unstructured.GroupVersionKind_Kind (object : Unstructured) :
    object.GroupVersionKind.Kind =
      if 2 ≤ object.GetAPIVersion.data.count '/' then "" else object.GetKind := by
  unfold Unstructured.GroupVersionKind
  cases h : schema.ParseGroupVersion object.GetAPIVersion with
  | none =>
    have := (schema.ParseGroupVersion_eq_none_iff _).mp h
    simp [this]
  | some gv =>
    have : ¬ 2 ≤ object.GetAPIVersion.data.count '/' := by
      intro hcon
      rw [(schema.ParseGroupVersion_eq_none_iff _).mpr hcon] at h
      simp at h
    simp [this]

theorem resources.ToGroupVersionResource_missing (table : Char → Char)
    (RegularPlural : String → String) (object : Unstructured)
    (h : object.GroupVersionKind.Kind = "") :
    resources.ToGroupVersionResource table RegularPlural (some object) =
      (⟨"", "", ""⟩, some (fmt.Errorf "unable to retrieve resource name - "
        (fmt.Errorf "unable to pluralize resource - " resources.ErrMissingKind))) := by
  simp [resources.ToGroupVersionResource, resources.PluralResourceName_empty _ _ _ h]

theorem resources.ToGroupVersionResource_kind (table : Char → Char)
    (RegularPlural : String → String) (object : Unstructured)
    (h : object.GroupVersionKind.Kind ≠ "") :
    resources.ToGroupVersionResource table RegularPlural (some object) =
      (⟨object.GroupVersionKind.Group, object.GroupVersionKind.Version,
        strings.ToLower table (RegularPlural object.GroupVersionKind.Kind)⟩, none) := by
  simp [resources.ToGroupVersionResource, resources.PluralResourceName_kind _ _ _ h]

/-- C5, as stated, fails: a structured resource whose kind, "Pod", is not empty makes
ToGroupVersionResource fail with an error wrapping ErrMissingKind when its apiVersion holds
two slashes: the group, version and kind read from such a resource are all empty. -/
theorem C5_kind_lost_with_malformed_apiVersion :
    (⟨"example.com/apps/v1", "Pod", "web", "prod", "", []⟩ : Unstructured).GetKind ≠ "" ∧
    (resources.ToGroupVersionResource sample.caseTable
        (resourceutil.RegularPlural sample.caseTable)
        (some ⟨"example.com/apps/v1", "Pod", "web", "prod", "", []⟩)).2
      = some (fmt.Errorf "unable to retrieve resource name - "
          (fmt.Errorf "unable to pluralize resource - " resources.ErrMissingKind)) ∧
    errors.Is (fmt.Errorf "unable to retrieve resource name - "
        (fmt.Errorf "unable to pluralize resource - " resources.ErrMissingKind))
      resources.ErrMissingKind = true := by
  refine ⟨by decide, by decide, by decide⟩

/-- C5, amended: a structured resource whose kind is empty, whatever its apiVersion, makes
ToGroupVersionResource fail with an error wrapping ErrMissingKind, and so does a resource
whose apiVersion holds two slashes or more, whatever its kind; PluralResourceName on a GVK
with an empty kind returns "" with an error wrapping ErrMissingKind. With a non-empty kind
PluralResourceName does not fail, and ToGroupVersionResource does not fail when the
apiVersion of the resource holds at most one slash. -/
theorem C5_empty_kind_fails (table : Char → Char) (RegularPlural : String → String)
    (object : Unstructured) (gvk : schema.GroupVersionKind) :
    (object.GetKind = "" ∨ 2 ≤ object.GetAPIVersion.data.count '/' →
      ∃ err, resources.ToGroupVersionResource table RegularPlural (some object)
          = (⟨"", "", ""⟩, some err) ∧
        errors.Is err resources.ErrMissingKind = true) ∧
    (gvk.Kind = "" →
      ∃ err, resources.PluralResourceName table RegularPlural gvk = ("", some err) ∧
        errors.Is err resources.ErrMissingKind = true) ∧
    (gvk.Kind ≠ "" → (resources.PluralResourceName table RegularPlural gvk).2 = none) ∧
    (object.GetKind ≠ "" → object.GetAPIVersion.data.count '/' ≤ 1 →
      (resources.ToGroupVersionResource table RegularPlural (some object)).2 = none) := by
  have hkind := Unstructured.GroupVersionKind_Kind object
  refine ⟨?_, ?_, ?_, ?_⟩
  · intro h
    have hempty : object.GroupVersionKind.Kind = "" := by
      rw [hkind]
      rcases h with h | h
      · split_ifs
        · rfl
        · exact h
      · simp [h]
    exact ⟨_, resources.ToGroupVersionResource_missing table RegularPlural object hempty,
      errors.Is_Errorf _ _ _ (errors.Is_Errorf _ _ _ (errors.Is_self _))⟩
  · intro h
    exact ⟨_, resources.PluralResourceName_empty _ _ _ h,
      errors.Is_Errorf _ _ _ (errors.Is_self _)⟩
  · intro h
    simp [resources.PluralResourceName_kind _ _ _ h]
  · intro h hapi
    have hne : object.GroupVersionKind.Kind ≠ "" := by
      rw [hkind]
      simp [show ¬ 2 ≤ object.GetAPIVersion.data.count '/' by omega, h]
    simp [resources.ToGroupVersionResource_kind table RegularPlural object hne]

theorem C5_empty_kind_fails_witness :
    (∃ err, resources.ToGroupVersionResource sample.caseTable
          (resourceutil.RegularPlural sample.caseTable)
          (some ⟨"apps/v1", "", "web", "prod", "", []⟩) = (⟨"", "", ""⟩, some err) ∧
      errors.Is err resources.ErrMissingKind = true) ∧
    (resources.ToGroupVersionResource sample.caseTable
        (resourceutil.RegularPlural sample.caseTable)
        (some ⟨"apps/v1", "Deployment", "web", "prod", "", []⟩)).2 = none :=
  ⟨(C5_empty_kind_fails sample.caseTable (resourceutil.RegularPlural sample.caseTable)
      ⟨"apps/v1", "", "web", "prod", "", []⟩ ⟨"apps", "v1", ""⟩).1 (Or.inl rfl),
   (C5_empty_kind_fails sample.caseTable (resourceutil.RegularPlural sample.caseTable)
      ⟨"apps/v1", "Deployment", "web", "prod", "", []⟩
      ⟨"apps", "v1", "Deployment"⟩).2.2.2 (by decide) (by decide)⟩

/-- C6, as stated, fails: for a structured resource with the non-empty kind "NetworkPolicy"
and an apiVersion of two slashes ToGroupVersionResource returns no triple of that resource:
it returns the zero triple and an error. -/
theorem C6_no_triple_with_malformed_apiVersion :
    (⟨"networking.k8s.io/v1/beta", "NetworkPolicy", "deny", "prod", "", []⟩ :
      Unstructured).GetKind ≠ "" ∧
    resources.ToGroupVersionResource sample.caseTable
        (resourceutil.RegularPlural sample.caseTable)
        (some ⟨"networking.k8s.io/v1/beta", "NetworkPolicy", "deny", "prod", "", []⟩)
      = (⟨"", "", ""⟩, some (fmt.Errorf "unable to retrieve resource name - "
          (fmt.Errorf "unable to pluralize resource - " resources.ErrMissingKind))) := by
  refine ⟨by decide, by decide⟩

/-- C6, amended: for a structured resource with a non-empty kind and an apiVersion of at
most one slash ToGroupVersionResource returns, without error, the group and the version of
the resource's GroupVersionKind (whose kind is the kind of the resource) and, as resource,
the lower-cased plural of the kind. That name holds no upper-case letter: lower-casing
changes none of its code points, and none is a letter A to Z (given case tables whose
images are themselves lower-cased). With the pluraliser of the spec the kind "Pod" gives
"pods" and the kind "Policy" gives "policies", whatever the case tables. -/
theorem C6_group_version_plural (table : Char → Char) (RegularPlural : String → String)
    (object : Unstructured) (hkind : object.GetKind ≠ "")
    (hapi : object.GetAPIVersion.data.count '/' ≤ 1) :
    resources.ToGroupVersionResource table RegularPlural (some object) =
      (⟨object.GroupVersionKind.Group, object.GroupVersionKind.Version,
        strings.ToLower table (RegularPlural object.GetKind)⟩, none) ∧
    object.GroupVersionKind.Kind = object.GetKind ∧
    ((∀ r : Char, 127 < r.toNat → unicode.ToLower table (table r) = table r) →
      ∀ c ∈ (resources.ToGroupVersionResource table RegularPlural
          (some object)).1.Resource.data,
        unicode.ToLower table c = c ∧ c.isUpper = false) ∧
    (object.GetKind = "Pod" →
      (resources.ToGroupVersionResource table (resourceutil.RegularPlural table)
        (some object)).1.Resource = "pods") ∧
    (object.GetKind = "Policy" →
      (resources.ToGroupVersionResource table (resourceutil.RegularPlural table)
        (some object)).1.Resource = "policies") := by
  have hk : object.GroupVersionKind.Kind = object.GetKind := by
    rw [Unstructured.GroupVersionKind_Kind]
    simp [show ¬ 2 ≤ object.GetAPIVersion.data.count '/' by omega]
  have hne : object.GroupVersionKind.Kind ≠ "" := by rw [hk]; exact hkind
  have key : ∀ plural : String → String,
      resources.ToGroupVersionResource table plural (some object) =
        (⟨object.GroupVersionKind.Group, object.GroupVersionKind.Version,
          strings.ToLower table (plural object.GetKind)⟩, none) := by
    intro plural
    rw [resources.ToGroupVersionResource_kind table plural object hne, hk]
  refine ⟨key _, hk, ?_, ?_, ?_⟩
  · intro htable
    rw [key]
    exact strings.ToLower_lowered table htable _
  · intro hpod
    rw [key, hpod]
    rfl
  · intro hpolicy
    rw [key, hpolicy]
    rfl

theorem C6_group_version_plural_witness :
    resources.ToGroupVersionResource sample.caseTable
        (resourceutil.RegularPlural sample.caseTable)
        (some ⟨"networking.k8s.io/v1", "NetworkPolicy", "deny", "prod", "", []⟩) =
      (⟨"networking.k8s.io", "v1", "networkpolicies"⟩, none) ∧
    (∀ c ∈ "networkpolicies".data,
      unicode.ToLower sample.caseTable c = c ∧ c.isUpper = false) ∧
    (resources.ToGroupVersionResource sample.caseTable
        (resourceutil.RegularPlural sample.caseTable)
        (some ⟨"v1", "Pod", "web", "prod", "", []⟩)).1.Resource = "pods" :=
  ⟨(C6_group_version_plural sample.caseTable (resourceutil.RegularPlural sample.caseTable)
      ⟨"networking.k8s.io/v1", "NetworkPolicy", "deny", "prod", "", []⟩ (by decide)
      (by decide)).1,
   (C6_group_version_plural sample.caseTable (resourceutil.RegularPlural sample.caseTable)
      ⟨"networking.k8s.io/v1", "NetworkPolicy", "deny", "prod", "", []⟩ (by decide)
      (by decide)).2.2.1 sample.caseTable_lowered,
   (C6_group_version_plural sample.caseTable (resourceutil.RegularPlural sample.caseTable)
      ⟨"v1", "Pod", "web", "prod", "", []⟩ (by decide) (by decide)).2.2.2.1 rfl⟩

/-! ## The cluster accessor -/

/-- C2: Delete on a cluster resource whose Resource is nil returns ErrMissingResource,
makes no call on the cluster client (the world, calls and cluster state, is untouched) and
leaves the cluster resource unchanged. -/
theorem C2_delete_unset_resource {σ : Type} (resource : clusters.ClusterResource σ)
    (w : World σ) (h : resource.Resource = none) :
    (resource.Delete w).out = .returned (some clusters.ErrMissingResource) ∧
    (resource.Delete w).world = w ∧
    (resource.Delete w).resource = resource := by
  simp [clusters.ClusterResource.Delete, h]

theorem C2_delete_unset_resource_witness :
    ((⟨none, some sample.accepting, some sample.webInput, none⟩ :
        clusters.ClusterResource Nat).Delete sample.fresh).out
      = .returned (some clusters.ErrMissingResource) ∧
    ((⟨none, some sample.accepting, some sample.webInput, none⟩ :
        clusters.ClusterResource Nat).Delete sample.fresh).world = sample.fresh ∧
    ((⟨none, some sample.accepting, some sample.webInput, none⟩ :
        clusters.ClusterResource Nat).Delete sample.fresh).resource
      = ⟨none, some sample.accepting, some sample.webInput, none⟩ :=
  C2_delete_unset_resource _ sample.fresh rfl

/-- C4: Delete on a cluster resource with a non-nil Resource calls the client's Delete with
the name of the resource; when that call returns no error, Delete returns nil and the local
Resource is the empty unstructured object (no name, no kind, no other field); when it
returns an error, Delete returns that very error and the cluster resource is left as it
was. -/
theorem C4_delete_resets_resource {σ : Type} (resource : clusters.ClusterResource σ)
    (w : World σ) (object : Unstructured) (client : dynamic.ResourceInterface σ)
    (input : clusters.ClusterResourceInput σ) (hR : resource.Resource = some object)
    (hC : resource.Client = some client) (hI : resource.Input = some input) :
    (resource.Delete w).world.calls = w.calls ++ [.Delete object.GetName] ∧
    ((client.Delete input.Context object.GetName w.state).1 = none →
      (resource.Delete w).out = .returned none ∧
      (resource.Delete w).resource = { resource with Resource := some Unstructured.empty } ∧
      Unstructured.empty.GetName = "" ∧ Unstructured.empty.GetKind = "" ∧
      Unstructured.empty.fields = []) ∧
    (∀ err, (client.Delete input.Context object.GetName w.state).1 = some err →
      (resource.Delete w).out = .returned (some err) ∧
      (resource.Delete w).resource = resource) := by
  obtain ⟨res, cl, inp, cluster⟩ := resource
  simp only at hR hC hI
  subst hR hC hI
  have hempty : Unstructured.empty.GetName = "" ∧ Unstructured.empty.GetKind = "" ∧
      Unstructured.empty.fields = [] := ⟨rfl, rfl, rfl⟩
  generalize hd : client.Delete input.Context object.GetName w.state = d
  obtain ⟨e, s⟩ := d
  cases e <;>
    simp [clusters.ClusterResource.Delete, clusters.ClusterResource.perform,
      clusters.Cluster.Delete, hd, hempty]

theorem C4_delete_resets_resource_witness :
    ((sample.webOn sample.accepting).Delete sample.fresh).out = .returned none ∧
    ((sample.webOn sample.accepting).Delete sample.fresh).resource.Resource
      = some Unstructured.empty ∧
    ((sample.webOn sample.refusing).Delete sample.fresh).out
      = .returned (some sample.notFound) ∧
    ((sample.webOn sample.refusing).Delete sample.fresh).resource
      = sample.webOn sample.refusing :=
  have ok := (C4_delete_resets_resource (sample.webOn sample.accepting) sample.fresh sample.web
    sample.accepting sample.webInput rfl rfl rfl).2.1 rfl
  have ko := (C4_delete_resets_resource (sample.webOn sample.refusing) sample.fresh sample.web
    sample.refusing sample.webInput rfl rfl rfl).2.2 sample.notFound rfl
  ⟨ok.1, by rw [ok.2.1], ko.1, ko.2⟩

/-- C3, as stated, fails: after a successful Delete the Resource is the empty object, and
Create on it does not fail: it submits the empty object to the client's Create and, on a
client that accepts it, returns nil. -/
theorem C3_create_submits_empty_object :
    ((sample.webOn sample.accepting).Delete sample.fresh).resource.Resource
      = some Unstructured.empty ∧
    ((((sample.webOn sample.accepting).Delete sample.fresh).resource.Create
        ((sample.webOn sample.accepting).Delete sample.fresh).world).out
      = .returned none) ∧
    ((((sample.webOn sample.accepting).Delete sample.fresh).resource.Create
        ((sample.webOn sample.accepting).Delete sample.fresh).world).world.calls
      = [.Delete "web", .Create (some Unstructured.empty)]) := by
  refine ⟨rfl, rfl, rfl⟩

/-- C3, amended: Create fails before submitting anything to the cluster client whenever the
Resource is nil: it returns ErrMissingResource, the world and the cluster resource are
untouched. A non-nil Resource, the empty object included, is not rejected: it is submitted
to the client's Create in one call, and Create returns what that call returns. -/
theorem C3_create_rejects_nil_only {σ : Type} (resource : clusters.ClusterResource σ)
    (w : World σ) :
    (resource.Resource = none →
      (resource.Create w).out = .returned (some clusters.ErrMissingResource) ∧
      (resource.Create w).world = w ∧ (resource.Create w).resource = resource) ∧
    (∀ object client input, resource.Resource = some object → resource.Client = some client →
      resource.Input = some input →
      (resource.Create w).world.calls = w.calls ++ [.Create (some object)] ∧
      (resource.Create w).out
        = .returned (client.Create input.Context (some object) w.state).1.2) := by
  constructor
  · intro h
    simp [clusters.ClusterResource.Create, h]
  · intro object client input hR hC hI
    obtain ⟨res, cl, inp, cluster⟩ := resource
    simp only at hR hC hI
    subst hR hC hI
    generalize hd : client.Create input.Context (some object) w.state = d
    obtain ⟨⟨o, e⟩, s⟩ := d
    cases e <;>
      simp [clusters.ClusterResource.Create, clusters.ClusterResource.perform,
        clusters.Cluster.Create, hd]

theorem C3_create_rejects_nil_only_witness :
    ((⟨none, some sample.accepting, some sample.webInput, none⟩ :
        clusters.ClusterResource Nat).Create sample.fresh).out
      = .returned (some clusters.ErrMissingResource) ∧
    ((⟨some Unstructured.empty, some sample.accepting, some sample.webInput, none⟩ :
        clusters.ClusterResource Nat).Create sample.fresh).world.calls
      = [] ++ [.Create (some Unstructured.empty)] :=
  ⟨((C3_create_rejects_nil_only ⟨none, some sample.accepting, some sample.webInput, none⟩
      sample.fresh).1 rfl).1,
   ((C3_create_rejects_nil_only
      ⟨some Unstructured.empty, some sample.accepting, some sample.webInput, none⟩
      sample.fresh).2 Unstructured.empty sample.accepting sample.webInput rfl rfl rfl).1⟩

/-- C1: Update on a cluster resource with a non-nil Resource never calls the client's Update
without a Get before it: the calls it makes are none (a nil Client or Input: Go panics),
a Get, or a Get followed by one Update. With a client and an input the first call is the
Get of the resource's name. When that Get returns an error, it is the only call made, and
Update returns "unable to get resource - " wrapping that error, the cluster resource
unchanged. -/
theorem C1_update_reads_before_write {σ : Type} (resource : clusters.ClusterResource σ)
    (w : World σ) (object : Unstructured) (hR : resource.Resource = some object) :
    ((resource.Update w).world.calls = w.calls ∨
      (resource.Update w).world.calls = w.calls ++ [.Get object.GetName] ∨
      ∃ written, (resource.Update w).world.calls
        = w.calls ++ [.Get object.GetName, .Update written]) ∧
    (∀ client input, resource.Client = some client → resource.Input = some input →
      ∃ later, (resource.Update w).world.calls = w.calls ++ .Get object.GetName :: later) ∧
    (∀ client input err, resource.Client = some client → resource.Input = some input →
      (client.Get input.Context object.GetName w.state).1.2 = some err →
      (resource.Update w).world.calls = w.calls ++ [.Get object.GetName] ∧
      (resource.Update w).world.state = (client.Get input.Context object.GetName w.state).2 ∧
      (resource.Update w).out
        = .returned (some (fmt.Errorf "unable to get resource - " err)) ∧
      errors.Unwrap (fmt.Errorf "unable to get resource - " err) = some err ∧
      errors.Is (fmt.Errorf "unable to get resource - " err) err = true ∧
      (resource.Update w).resource = resource) := by
  obtain ⟨res, cl, inp, cluster⟩ := resource
  simp only at hR
  subst hR
  have hwrap : ∀ err, errors.Unwrap (fmt.Errorf "unable to get resource - " err) = some err ∧
      errors.Is (fmt.Errorf "unable to get resource - " err) err = true :=
    fun err => ⟨rfl, errors.Is_Errorf _ _ _ (errors.Is_self err)⟩
  cases cl with
  | none =>
    refine ⟨Or.inl ?_, ?_, ?_⟩
    · simp [clusters.ClusterResource.Update, clusters.ClusterResource.perform,
        clusters.Cluster.Update, clusters.Cluster.Read]
    · intro client input hC
      simp at hC
    · intro client input err hC
      simp at hC
  | some client =>
    cases inp with
    | none =>
      refine ⟨Or.inl ?_, ?_, ?_⟩
      · simp [clusters.ClusterResource.Update, clusters.ClusterResource.perform,
          clusters.Cluster.Update, clusters.Cluster.Read]
      · intro client input _ hI
        simp at hI
      · intro client input err _ hI
        simp at hI
    | some input =>
      generalize hg : client.Get input.Context object.GetName w.state = g
      obtain ⟨⟨current, e⟩, s⟩ := g
      have hrun : (e = none ∧ current = none ∧
            (clusters.ClusterResource.Update ⟨some object, some client, some input, cluster⟩
              w).world.calls = w.calls ++ [.Get object.GetName]) ∨
          (e = none ∧ ∃ written,
            (clusters.ClusterResource.Update ⟨some object, some client, some input, cluster⟩
              w).world.calls = w.calls ++ [.Get object.GetName, .Update written]) ∨
          (∃ err, e = some err ∧
            (clusters.ClusterResource.Update ⟨some object, some client, some input, cluster⟩
              w).world.calls = w.calls ++ [.Get object.GetName] ∧
            (clusters.ClusterResource.Update ⟨some object, some client, some input, cluster⟩
              w).world.state = s ∧
            (clusters.ClusterResource.Update ⟨some object, some client, some input, cluster⟩
              w).out = .returned (some (fmt.Errorf "unable to get resource - " err)) ∧
            (clusters.ClusterResource.Update ⟨some object, some client, some input, cluster⟩
              w).resource = ⟨some object, some client, some input, cluster⟩) := by
        cases e with
        | some err =>
          right; right
          refine ⟨err, rfl, ?_⟩
          simp [clusters.ClusterResource.Update, clusters.ClusterResource.perform,
            clusters.Cluster.Update, clusters.Cluster.Read, hg]
        | none =>
          cases current with
          | none =>
            left
            simp [clusters.ClusterResource.Update, clusters.ClusterResource.perform,
              clusters.Cluster.Update, clusters.Cluster.Read, hg]
          | some cur =>
            right; left
            refine ⟨rfl, some (object.SetResourceVersion cur.GetResourceVersion), ?_⟩
            generalize hu : client.Update input.Context
              (some (object.SetResourceVersion cur.GetResourceVersion)) s = u
            obtain ⟨⟨o2, e2⟩, s2⟩ := u
            cases e2 <;>
              simp [clusters.ClusterResource.Update, clusters.ClusterResource.perform,
                clusters.Cluster.Update, clusters.Cluster.Read, hg, hu]
      refine ⟨?_, ?_, ?_⟩
      · rcases hrun with ⟨_, _, h⟩ | ⟨_, written, h⟩ | ⟨err, _, h, _⟩
        · exact Or.inr (Or.inl h)
        · exact Or.inr (Or.inr ⟨written, h⟩)
        · exact Or.inr (Or.inl h)
      · intro client2 input2 _ _
        rcases hrun with ⟨_, _, h⟩ | ⟨_, written, h⟩ | ⟨err, _, h, _⟩
        · exact ⟨[], h⟩
        · exact ⟨[.Update written], h⟩
        · exact ⟨[], h⟩
      · intro client2 input2 err hC hI hget
        simp only [Option.some.injEq] at hC hI
        subst hC hI
        rw [hg] at hget
        simp only at hget
        subst hget
        rcases hrun with ⟨h, _⟩ | ⟨h, _⟩ | ⟨err2, he, hcalls, hstate, hout, hres⟩
        · simp at h
        · simp at h
        · simp only [Option.some.injEq] at he
          subst he
          exact ⟨hcalls, by rw [hg]; exact hstate, hout, (hwrap _).1, (hwrap _).2, hres⟩

theorem C1_update_reads_before_write_witness :
    ((sample.webOn sample.refusing).Update sample.fresh).world.calls = [] ++ [.Get "web"] ∧
    ((sample.webOn sample.refusing).Update sample.fresh).out
      = .returned (some (fmt.Errorf "unable to get resource - " sample.notFound)) ∧
    ∃ later, ((sample.webOn sample.accepting).Update sample.fresh).world.calls
      = [] ++ .Get "web" :: later :=
  have failed := (C1_update_reads_before_write (sample.webOn sample.refusing) sample.fresh
    sample.web rfl).2.2 sample.refusing sample.webInput sample.notFound rfl rfl rfl
  ⟨failed.1, failed.2.2.1,
    (C1_update_reads_before_write (sample.webOn sample.accepting) sample.fresh sample.web
      rfl).2.1 sample.accepting sample.webInput rfl rfl⟩

/-! ## Validation of the input of a cluster resource -/

theorem clusters.Validate_ne_ErrMissingNameInput {σ : Type}
    (input : clusters.ClusterResourceInput σ) :
    input.Validate ≠ some clusters.ErrMissingNameInput := by
  unfold clusters.ClusterResourceInput.Validate
  split_ifs <;> simp [clusters.ErrMissingGroupInput, clusters.ErrMissingVersionInput,
    clusters.ErrMissingKindInput, clusters.ErrMissingClientInput, clusters.ErrMissingNameInput]

/-- C9: for an input with non-empty Group, Version and Kind and an empty Name, Validate
returns ErrMissingKindInput and NewClusterResource returns it with the zero cluster
resource, the world untouched; it is the error value Validate returns for an empty Kind, it
is not ErrMissingNameInput, and no input makes Validate return ErrMissingNameInput. -/
theorem C9_missing_name_reported_as_kind {σ : Type} (table : Char → Char) (RegularPlural : String → String)
    (input : clusters.ClusterResourceInput σ) (w : World σ) (hG : input.Group ≠ "")
    (hV : input.Version ≠ "") (hK : input.Kind ≠ "") (hN : input.Name = "") :
    input.Validate = some clusters.ErrMissingKindInput ∧
    clusters.NewClusterResource table RegularPlural input w
      = (.returned (some clusters.ClusterResource.zero, some clusters.ErrMissingKindInput), w) ∧
    (∀ other : clusters.ClusterResourceInput σ, other.Group ≠ "" → other.Version ≠ "" →
      other.Kind = "" → other.Validate = some clusters.ErrMissingKindInput) ∧
    clusters.ErrMissingKindInput ≠ clusters.ErrMissingNameInput ∧
    (∀ any : clusters.ClusterResourceInput σ,
      any.Validate ≠ some clusters.ErrMissingNameInput) := by
  have hval : input.Validate = some clusters.ErrMissingKindInput := by
    simp [clusters.ClusterResourceInput.Validate, hG, hV, hK, hN]
  refine ⟨hval, ?_, ?_, by decide, clusters.Validate_ne_ErrMissingNameInput⟩
  · simp [clusters.NewClusterResource, hval]
  · intro other h1 h2 h3
    simp [clusters.ClusterResourceInput.Validate, h1, h2, h3]

theorem C9_missing_name_reported_as_kind_witness :
    (⟨"apps", "v1", "Deployment", "", "prod", some sample.acceptingCluster, none⟩ :
        clusters.ClusterResourceInput Nat).Validate = some clusters.ErrMissingKindInput :=
  (C9_missing_name_reported_as_kind sample.caseTable
    (resourceutil.RegularPlural sample.caseTable)
    ⟨"apps", "v1", "Deployment", "", "prod", some sample.acceptingCluster, none⟩ sample.fresh
    (by decide) (by decide) (by decide) rfl).1

/-! ## Loading manifests -/

theorem manifests.ToYAML.loop_appends_nothing (file : String) (found : List yaml.Parsed)
    (yamlObjects result : List yaml.Node)
    (h : manifests.ToYAML.loop file found yamlObjects = .returned (result, none)) :
    result = yamlObjects := by
  cases found with
  | nil =>
    simp only [manifests.ToYAML.loop, Outcome.returned.injEq, Prod.mk.injEq, and_true] at h
    exact h.symm
  | cons next rest =>
    cases next with
    | document => simp [manifests.ToYAML.loop, yaml.Decode] at h
    | failed err =>
      simp only [manifests.ToYAML.loop, yaml.Decode] at h
      split_ifs at h
      · simp only [Outcome.returned.injEq, Prod.mk.injEq, and_true] at h
        exact h.symm
      · simp at h

theorem manifests.NewManifest_document_panics (host : Host) (path : String)
    (content : List UInt8) (rest : List yaml.Parsed) (hexists : host.IsNotExist path = false)
    (hread : host.ReadFile path = .ok content)
    (hdoc : host.Decode content = .document :: rest) :
    manifests.NewManifest host path = .panicked := by
  simp [manifests.NewManifest, hexists, hread, manifests.Manifest.ToYAML, hdoc,
    manifests.ToYAML.loop, yaml.Decode]

theorem manifests.NewManifest_loaded_empty (host : Host) (path : String)
    (loaded : manifests.Manifest)
    (h : manifests.NewManifest host path = .returned (some loaded, none)) :
    loaded.YAML = [] ∧ loaded.Resources = [] := by
  unfold manifests.NewManifest at h
  split_ifs at h
  · simp at h
  · cases hr : host.ReadFile path with
    | error e => simp [hr] at h
    | ok content =>
      simp only [hr] at h
      cases hy : manifests.Manifest.ToYAML host ⟨path, content, [], []⟩ with
      | panicked => simp [hy] at h
      | returned decoded =>
        obtain ⟨yamlContent, e⟩ := decoded
        cases e with
        | some e => simp [hy] at h
        | none =>
          have hnil : yamlContent = [] :=
            manifests.ToYAML.loop_appends_nothing _ _ _ _ hy
          subst hnil
          simp only [hy, manifests.NewManifest.loop, Outcome.returned.injEq, Prod.mk.injEq,
            Option.some.injEq, and_true] at h
          subst h
          exact ⟨rfl, rfl⟩

theorem kresources.FromFiles.loop_gathers_nothing (host : Host) (files : List String)
    (manifestResources result : List (Option Unstructured))
    (h : kresources.FromFiles.loop host files manifestResources = .returned (result, none)) :
    result = manifestResources := by
  induction files generalizing manifestResources with
  | nil =>
    simp only [kresources.FromFiles.loop, Outcome.returned.injEq, Prod.mk.injEq, and_true] at h
    exact h.symm
  | cons file rest ih =>
    unfold kresources.FromFiles.loop at h
    cases hm : manifests.NewManifest host file with
    | panicked => simp [hm] at h
    | returned loaded =>
      obtain ⟨manifest, e⟩ := loaded
      cases e with
      | some e => simp [hm] at h
      | none =>
        cases manifest with
        | none => simp [hm] at h
        | some manifest =>
          simp only [hm] at h
          have hempty := (manifests.NewManifest_loaded_empty host file manifest hm).2
          rw [hempty, List.append_nil] at h
          exact ih _ h

theorem kresources.FromFiles.loop_failed (host : Host) (before : List String) (file : String)
    (after : List String) (failed : Option manifests.Manifest) (err : Error)
    (manifestResources : List (Option Unstructured))
    (hbefore : ∀ earlier ∈ before, ∃ manifest,
      manifests.NewManifest host earlier = .returned (some manifest, none))
    (hfile : manifests.NewManifest host file = .returned (failed, some err)) :
    kresources.FromFiles.loop host (before ++ file :: after) manifestResources =
      .returned ([], some (fmt.Errorf "unable to create instance of manifest object - " err)) := by
  induction before generalizing manifestResources with
  | nil => simp [kresources.FromFiles.loop, hfile]
  | cons first rest ih =>
    obtain ⟨manifest, hfirst⟩ := hbefore first (List.mem_cons_self _ _)
    simp only [List.cons_append, kresources.FromFiles.loop, hfirst]
    exact ih _ (fun earlier hmem => hbefore earlier (List.mem_cons_of_mem _ hmem))

theorem kresources.FromFiles_returns_no_resource (host : Host) (files : List String)
    (result : List (Option Unstructured))
    (h : kresources.FromFiles host files = .returned (result, none)) : result = [] :=
  kresources.FromFiles.loop_gathers_nothing host files [] result h

theorem manifests.NewManifest.loop_error (host : Host) (nodes : List yaml.Node)
    (manifest : manifests.Manifest) (err : Error)
    (h : (manifests.NewManifest.loop host nodes manifest).2 = some err) :
    ∃ node ∈ nodes, ∃ cause,
      (resources.ToUnstructured host (.nodePointer node)).2 = some cause ∧
      err = fmt.Errorf "unable to convert to unstructured object - " cause := by
  induction nodes generalizing manifest with
  | nil => simp [manifests.NewManifest.loop] at h
  | cons node rest ih =>
    unfold manifests.NewManifest.loop at h
    generalize hc : resources.ToUnstructured host (.nodePointer node) = converted at h
    obtain ⟨object, e⟩ := converted
    cases e with
    | some e =>
      simp only [Option.some.injEq] at h
      exact ⟨node, List.mem_cons_self _ _, e, by rw [hc], h.symm⟩
    | none =>
      simp only at h
      obtain ⟨other, hmem, cause, hcause, herr⟩ := ih _ h
      exact ⟨other, List.mem_cons_of_mem _ hmem, cause, hcause, herr⟩

theorem manifests.conversion_error_chain (cause : Error) :
    errors.Is (fmt.Errorf "unable to convert to unstructured object - " cause)
        manifests.ErrConvertUnstructured
      = errors.Is cause manifests.ErrConvertUnstructured := by
  simp [fmt.Errorf, errors.Is, manifests.ErrConvertUnstructured]

/-- C7 fails on the code: FromFiles on two files of one YAML document each does not return
the resource of the first file followed by that of the second: it panics while the first
file is decoded. On the file without a document it returns the empty list, and on a
missing file the empty list and the wrapped error of NewManifest. -/
theorem C7_two_files_panic :
    kresources.FromFiles sample.disk ["a.yaml", "b.yaml"] = .panicked ∧
    manifests.NewManifest sample.disk "a.yaml" = .panicked ∧
    kresources.FromFiles sample.disk ["empty.yaml", "empty.yaml"] = .returned ([], none) ∧
    kresources.FromFiles sample.disk ["empty.yaml", "absent.yaml", "a.yaml"]
      = .returned ([], some (fmt.Errorf "unable to create instance of manifest object - "
          (fmt.Errorf "file missing absent.yaml - " manifests.ErrFileMissing))) := by
  refine ⟨by decide, by decide, by decide, by decide⟩

/-- C8 fails on the code: NewManifest on a readable file of one YAML document returns no
error of the conversion kind: it panics while the document is decoded, before any
conversion. The error for a missing path does wrap ErrFileMissing. -/
theorem C8_document_panics_before_conversion :
    manifests.NewManifest sample.disk "b.yaml" = .panicked ∧
    manifests.NewManifest sample.disk "absent.yaml"
      = .returned (none, some (fmt.Errorf "file missing absent.yaml - "
          manifests.ErrFileMissing)) ∧
    errors.Is (fmt.Errorf "file missing absent.yaml - " manifests.ErrFileMissing)
      manifests.ErrFileMissing = true := by
  refine ⟨by decide, by decide, by decide⟩

/-! ## Group and version through apiVersion -/

theorem List.takeWhile_ne_append (c : Char) (l r : List Char) (h : c ∉ l) :
    (l ++ c :: r).takeWhile (· != c) = l := by
  induction l with
  | nil => simp
  | cons a l ih =>
    have ha : a ≠ c := fun hac => h (by simp [hac])
    have hl : c ∉ l := fun hm => h (List.mem_cons_of_mem _ hm)
    have hb : (a != c) = true := by simp [ha]
    simp [List.takeWhile_cons, hb, ih hl]

theorem List.dropWhile_ne_append (c : Char) (l r : List Char) (h : c ∉ l) :
    (l ++ c :: r).dropWhile (· != c) = c :: r := by
  induction l with
  | nil => simp
  | cons a l ih =>
    have ha : a ≠ c := fun hac => h (by simp [hac])
    have hl : c ∉ l := fun hm => h (List.mem_cons_of_mem _ hm)
    have hb : (a != c) = true := by simp [ha]
    simp [List.dropWhile_cons, hb, ih hl]

theorem schema.apiVersion_data (group version : String) :
    (group ++ "/" ++ version).data = group.data ++ '/' :: version.data := by
  simp [String.data_append]

theorem schema.ParseGroupVersion_String (group version : String) (hg : group ≠ "") :
    schema.ParseGroupVersion (schema.GroupVersion.String ⟨group, version⟩) =
      if '/' ∈ group.data ∨ '/' ∈ version.data then none else some ⟨group, version⟩ := by
  have hdata := schema.apiVersion_data group version
  have hgd : group.data ≠ [] := fun h => hg (String.ext h)
  have hne1 : group ++ "/" ++ version ≠ "" := by
    intro h
    have := congrArg String.data h
    rw [hdata] at this
    simp at this
  have hne2 : group ++ "/" ++ version ≠ "/" := by
    intro h
    have := congrArg String.data h
    rw [hdata] at this
    have hlen : (group.data ++ '/' :: version.data).length = 1 := by rw [this]; rfl
    simp only [List.length_append, List.length_cons] at hlen
    have := List.length_pos.mpr hgd
    omega
  have hcount : (group ++ "/" ++ version).data.count '/'
      = group.data.count '/' + version.data.count '/' + 1 := by
    rw [hdata]
    simp [List.count_append, List.count_cons]
    omega
  simp only [schema.GroupVersion.String, hg, ne_eq, not_false_eq_true, if_true]
  unfold schema.ParseGroupVersion
  simp only [hne1, hne2, or_self, if_false]
  by_cases hslash : '/' ∈ group.data ∨ '/' ∈ version.data
  · simp only [hslash, if_true]
    have hpos : 0 < group.data.count '/' + version.data.count '/' := by
      rcases hslash with h | h
      · have := List.count_pos_iff.mpr h
        omega
      · have := List.count_pos_iff.mpr h
        omega
    obtain ⟨n, hn⟩ : ∃ n, (group ++ "/" ++ version).data.count '/' = n + 2 :=
      ⟨group.data.count '/' + version.data.count '/' - 1, by omega⟩
    rw [hn]
    rfl
  · simp only [hslash, if_false]
    push_neg at hslash
    have h1 : (group ++ "/" ++ version).data.count '/' = 1 := by
      rw [hcount, List.count_eq_zero.mpr hslash.1, List.count_eq_zero.mpr hslash.2]
    rw [h1]
    simp only [hdata, List.takeWhile_ne_append _ _ _ hslash.1,
      List.dropWhile_ne_append _ _ _ hslash.1, List.drop_succ_cons, List.drop_zero]

/-! ## Building a cluster resource -/

theorem clusters.Validate_eq_none_iff {σ : Type} (input : clusters.ClusterResourceInput σ) :
    input.Validate = none ↔
      input.Group ≠ "" ∧ input.Version ≠ "" ∧ input.Kind ≠ "" ∧ input.Name ≠ "" ∧
        input.Client.isSome = true := by
  unfold clusters.ClusterResourceInput.Validate
  cases hc : input.Client <;> split_ifs with h1 h2 h3 h4 h5 <;> simp_all

theorem Unstructured.GroupVersionKind_built (group version kind name ns : String)
    (hg : group ≠ "") :
    Unstructured.GroupVersionKind
        (((Unstructured.empty.SetGroupVersionKind ⟨group, version, kind⟩).SetName
          name).SetNamespace ns) =
      if '/' ∈ group.data ∨ '/' ∈ version.data then ⟨"", "", ""⟩ else ⟨group, version, kind⟩ := by
  simp only [Unstructured.GroupVersionKind, Unstructured.GetAPIVersion, Unstructured.GetKind,
    Unstructured.SetNamespace, Unstructured.SetName, Unstructured.SetGroupVersionKind,
    Unstructured.empty, schema.ParseGroupVersion_String group version hg]
  split_ifs <;> rfl

/-- The three ways NewClusterResource ends: the input is invalid; the input is valid but
its group or version holds a slash, so that the apiVersion written on the object does not
parse back; or the cluster resource is built. -/
theorem clusters.NewClusterResource_cases {σ : Type} (table : Char → Char) (RegularPlural : String → String)
    (input : clusters.ClusterResourceInput σ) (w : World σ) :
    (∃ err, input.Validate = some err ∧
      clusters.NewClusterResource table RegularPlural input w
        = (.returned (some clusters.ClusterResource.zero, some err), w)) ∨
    (input.Validate = none ∧ ('/' ∈ input.Group.data ∨ '/' ∈ input.Version.data) ∧
      clusters.NewClusterResource table RegularPlural input w
        = (.returned (none, some (fmt.Errorf "unable to get schema.GroupVersionResource - "
            (fmt.Errorf "unable to retrieve resource name - "
              (fmt.Errorf "unable to pluralize resource - " resources.ErrMissingKind)))), w)) ∨
    (input.Validate = none ∧ ¬ ('/' ∈ input.Group.data ∨ '/' ∈ input.Version.data) ∧
      ∃ object client stored cluster gvr,
        object.GroupVersionKind = ⟨input.Group, input.Version, input.Kind⟩ ∧
        object.GetName = input.Name ∧ object.GetNamespace = input.Namespace ∧
        clusters.NewClusterResource table RegularPlural input w
          = (.returned (some ⟨some object, some client, some stored, cluster⟩, none),
              ⟨w.state, w.calls ++ [.Resource gvr input.Namespace]⟩)) := by
  cases hval : input.Validate with
  | some err => exact Or.inl ⟨err, rfl, by simp [clusters.NewClusterResource, hval]⟩
  | none =>
    right
    obtain ⟨hG, hV, hK, hN, hC⟩ := (clusters.Validate_eq_none_iff input).mp hval
    obtain ⟨group, version, kind, name, ns, cl, ctx⟩ := input
    simp only at hG hV hK hN hC
    obtain ⟨client, rfl⟩ := Option.isSome_iff_exists.mp hC
    have hgvk := Unstructured.GroupVersionKind_built group version kind name ns hG
    by_cases hslash : '/' ∈ group.data ∨ '/' ∈ version.data
    · left
      refine ⟨rfl, hslash, ?_⟩
      simp only [hslash, if_true] at hgvk
      cases ctx <;>
        simp [clusters.NewClusterResource, hval, resources.ToGroupVersionResource, hgvk,
          resources.PluralResourceName]
    · right
      refine ⟨rfl, hslash, ?_⟩
      simp only [hslash, if_false] at hgvk
      refine ⟨_, client.Resource ⟨group, version, strings.ToLower table (RegularPlural kind)⟩ ns,
        ⟨group, version, kind, name, ns, some client, some (ctx.getD .Background)⟩,
        some (clusters.NewCluster (some client)),
        ⟨group, version, strings.ToLower table (RegularPlural kind)⟩, hgvk, rfl, rfl, ?_⟩
      have hns : (((Unstructured.empty.SetGroupVersionKind ⟨group, version, kind⟩).SetName
          name).SetNamespace ns).GetNamespace = ns := rfl
      cases ctx <;>
        simp [clusters.NewClusterResource, hval, resources.ToGroupVersionResource, hgvk,
          resources.PluralResourceName, hK, hns]

/-! ## From files to the cluster -/

theorem clusters.Read_built {σ : Type} (object : Unstructured)
    (client : dynamic.ResourceInterface σ) (stored : clusters.ClusterResourceInput σ)
    (cluster : Option (clusters.Cluster σ)) (w : World σ) :
    (∃ err resource world,
      clusters.ClusterResource.Read ⟨some object, some client, some stored, cluster⟩ w
        = ⟨.returned (some err), resource, world⟩) ∨
    (∃ resource world,
      clusters.ClusterResource.Read ⟨some object, some client, some stored, cluster⟩ w
        = ⟨.returned none, resource, world⟩) := by
  generalize hg : client.Get stored.Context object.GetName w.state = g
  obtain ⟨⟨current, e⟩, s⟩ := g
  cases e with
  | some err =>
    exact Or.inl ⟨err, _, _, by
      simp [clusters.ClusterResource.Read, clusters.ClusterResource.perform,
        clusters.Cluster.Read, hg]; exact ⟨rfl, rfl⟩⟩
  | none =>
    exact Or.inr ⟨_, _, by
      simp [clusters.ClusterResource.Read, clusters.ClusterResource.perform,
        clusters.Cluster.Read, hg]; exact ⟨rfl, rfl⟩⟩

theorem kresources.FromClusterFromFiles.loop_fetches_or_fails {σ : Type} (table : Char → Char) (RegularPlural : String → String)
    (client : Option (dynamic.Interface σ)) (fileResources : List (Option Unstructured))
    (clusterResources : List (Option Unstructured)) (w : World σ)
    (hall : ∀ r ∈ fileResources, r ≠ none) :
    (∃ err, (kresources.FromClusterFromFiles.loop table RegularPlural client fileResources
        clusterResources w).1 = .returned ([], some err)) ∨
    ((∃ fetched, (kresources.FromClusterFromFiles.loop table RegularPlural client fileResources
        clusterResources w).1 = .returned (fetched, none)) ∧
      ∀ object, some object ∈ fileResources → object.GroupVersionKind.Group ≠ "") := by
  induction fileResources generalizing clusterResources w with
  | nil => exact Or.inr ⟨⟨clusterResources, rfl⟩, by simp⟩
  | cons first rest ih =>
    cases first with
    | none => exact absurd rfl (hall none (List.mem_cons_self _ _))
    | some fileResource =>
      have hrest : ∀ r ∈ rest, r ≠ none := fun r hr => hall r (List.mem_cons_of_mem _ hr)
      unfold kresources.FromClusterFromFiles.loop
      rcases clusters.NewClusterResource_cases table RegularPlural
          ⟨fileResource.GroupVersionKind.Group, fileResource.GroupVersionKind.Version,
            fileResource.GroupVersionKind.Kind, fileResource.GetName, fileResource.GetNamespace,
            client, none⟩ w with
        ⟨err, _, heq⟩ | ⟨_, _, heq⟩ | ⟨hval, _, object, cl, stored, cluster, gvr, _, _, _, heq⟩
      · rw [heq]
        exact Or.inl ⟨_, rfl⟩
      · rw [heq]
        exact Or.inl ⟨_, rfl⟩
      · rw [heq]
        have hgroup := ((clusters.Validate_eq_none_iff _).mp hval).1
        simp only at hgroup
        rcases clusters.Read_built object cl stored cluster
            ⟨w.state, w.calls ++ [.Resource gvr fileResource.GetNamespace]⟩ with
          ⟨err, resource, world, hread⟩ | ⟨resource, world, hread⟩
        · simp only [hread]
          exact Or.inl ⟨_, rfl⟩
        · simp only [hread]
          rcases ih (clusterResources ++ [resource.Resource]) world hrest with h | ⟨h, hgroups⟩
          · exact Or.inl h
          · refine Or.inr ⟨h, ?_⟩
            intro other hmem
            simp only [List.mem_cons, Option.some.injEq] at hmem
            rcases hmem with hmem | hmem
            · subst hmem
              exact hgroup
            · exact hgroups other hmem

/-- C10, as stated, fails twice. An input whose Group, Version, Kind and Name are non-empty
and whose Client is set is rejected when its group holds a slash: the apiVersion written on
the object does not parse back, the kind read from the object is empty and
NewClusterResource returns nil with an error wrapping ErrMissingKind. And
FromClusterFromFiles on a file that holds a resource does not return an empty list and an
error: it panics while the file is decoded. -/
theorem C10_slash_in_group_rejected :
    sample.slashInput.Group ≠ "" ∧ sample.slashInput.Version ≠ "" ∧
    sample.slashInput.Kind ≠ "" ∧ sample.slashInput.Name ≠ "" ∧
    sample.slashInput.Client.isSome = true ∧
    (∃ err, (clusters.NewClusterResource sample.caseTable
        (resourceutil.RegularPlural sample.caseTable) sample.slashInput sample.fresh).1
          = .returned (none, some err) ∧
      errors.Is err resources.ErrMissingKind = true) ∧
    (kresources.FromClusterFromFiles sample.disk sample.caseTable
        (resourceutil.RegularPlural sample.caseTable) (some sample.acceptingCluster)
        ["a.yaml"] sample.fresh).1 = .panicked := by
  refine ⟨by decide, by decide, by decide, by decide, rfl, ?_, by decide⟩
  exact ⟨fmt.Errorf "unable to get schema.GroupVersionResource - "
    (fmt.Errorf "unable to retrieve resource name - "
      (fmt.Errorf "unable to pluralize resource - " resources.ErrMissingKind)), rfl, by decide⟩

/-- C10, amended: NewClusterResource returns a cluster resource without error if and only
if the input's Group, Version, Kind and Name are all non-empty, neither Group nor Version
holds a slash, and its Client is non-nil, whatever the Namespace; on success the stored
Resource carries exactly the input's group, version, kind, name and namespace. An input
with an empty Group is rejected with ErrMissingGroupInput and the zero cluster resource,
the world (the calls on the client included) untouched. -/
theorem C10_new_cluster_resource {σ : Type} (table : Char → Char)
    (RegularPlural : String → String) (input : clusters.ClusterResourceInput σ) (w : World σ) :
    ((∃ resource, (clusters.NewClusterResource table RegularPlural input w).1
        = .returned (some resource, none)) ↔
      (input.Group ≠ "" ∧ input.Version ≠ "" ∧ input.Kind ≠ "" ∧ input.Name ≠ "" ∧
        input.Client.isSome = true ∧ '/' ∉ input.Group.data ∧ '/' ∉ input.Version.data)) ∧
    (∀ resource, (clusters.NewClusterResource table RegularPlural input w).1
        = .returned (some resource, none) →
      ∃ object, resource.Resource = some object ∧
        object.GroupVersionKind = ⟨input.Group, input.Version, input.Kind⟩ ∧
        object.GetName = input.Name ∧ object.GetNamespace = input.Namespace) ∧
    (input.Group = "" →
      clusters.NewClusterResource table RegularPlural input w
        = (.returned (some clusters.ClusterResource.zero, some clusters.ErrMissingGroupInput),
            w)) := by
  refine ⟨?_, ?_, ?_⟩
  · rcases clusters.NewClusterResource_cases table RegularPlural input w with
      ⟨err, hval, heq⟩ | ⟨hval, hslash, heq⟩ |
      ⟨hval, hslash, object, cl, stored, cluster, gvr, _, _, _, heq⟩
    · constructor
      · rintro ⟨resource, h⟩
        rw [heq] at h
        simp at h
      · rintro ⟨h1, h2, h3, h4, h5, _⟩
        have := (clusters.Validate_eq_none_iff input).mpr ⟨h1, h2, h3, h4, h5⟩
        rw [hval] at this
        simp at this
    · constructor
      · rintro ⟨resource, h⟩
        rw [heq] at h
        simp at h
      · rintro ⟨_, _, _, _, _, h6, h7⟩
        rcases hslash with h | h
        · exact absurd h h6
        · exact absurd h h7
    · constructor
      · intro _
        obtain ⟨h1, h2, h3, h4, h5⟩ := (clusters.Validate_eq_none_iff input).mp hval
        push_neg at hslash
        exact ⟨h1, h2, h3, h4, h5, hslash.1, hslash.2⟩
      · intro _
        exact ⟨_, by rw [heq]⟩
  · intro resource h
    rcases clusters.NewClusterResource_cases table RegularPlural input w with
      ⟨err, hval, heq⟩ | ⟨hval, hslash, heq⟩ |
      ⟨hval, hslash, object, cl, stored, cluster, gvr, hgvk, hname, hns, heq⟩
    · rw [heq] at h
      simp at h
    · rw [heq] at h
      simp at h
    · rw [heq] at h
      simp only [Outcome.returned.injEq, Prod.mk.injEq, Option.some.injEq, and_true] at h
      subst h
      exact ⟨object, rfl, hgvk, hname, hns⟩
  · intro h
    simp [clusters.NewClusterResource, clusters.ClusterResourceInput.Validate, h]

theorem C10_new_cluster_resource_witness :
    (∃ object, (clusters.NewClusterResource sample.caseTable
        (resourceutil.RegularPlural sample.caseTable) sample.webInput sample.fresh).1
      = .returned (some ⟨some object, some sample.accepting,
          some sample.webInput, some (clusters.NewCluster (some sample.acceptingCluster))⟩, none) ∧
      object.GroupVersionKind = ⟨"apps", "v1", "Deployment"⟩) ∧
    clusters.NewClusterResource sample.caseTable (resourceutil.RegularPlural sample.caseTable)
        ⟨"", "v1", "Pod", "web", "prod", some sample.acceptingCluster, none⟩ sample.fresh
      = (.returned (some clusters.ClusterResource.zero, some clusters.ErrMissingGroupInput),
          sample.fresh) :=
  ⟨by
    obtain ⟨object, hres, hgvk, _⟩ :=
      (C10_new_cluster_resource sample.caseTable (resourceutil.RegularPlural sample.caseTable)
        sample.webInput sample.fresh).2.1
        ⟨some (((Unstructured.empty.SetGroupVersionKind ⟨"apps", "v1", "Deployment"⟩).SetName
            "web").SetNamespace "prod"), some sample.accepting, some sample.webInput,
          some (clusters.NewCluster (some sample.acceptingCluster))⟩ rfl
    simp only [Option.some.injEq] at hres
    subst hres
    exact ⟨_, rfl, hgvk⟩,
   (C10_new_cluster_resource sample.caseTable (resourceutil.RegularPlural sample.caseTable)
      ⟨"", "v1", "Pod", "web", "prod", some sample.acceptingCluster, none⟩ sample.fresh).2.2
      rfl⟩

end Kres
